import Mathlib

/-!
# Verification of the privy-aptos-demo transaction pipeline

Shallow embedding of the client-side transaction pipeline of the
`privy-aptos-demo` repository (files `src/lib/aptos-utils.ts`,
`src/lib/aptos-hooks.ts`, `src/app/page.tsx` and the Movement-testnet page
variant) together with proofs and refutations of the specified properties.

Modelling conventions:
* JavaScript strings are modelled as `List Char` (`JStr`); the inputs at stake
  are ASCII hex/decimal strings, for which `List Char` operations coincide
  with the JavaScript (UTF-16 code unit) operations used by the source.
* JavaScript functions that can throw are modelled with an `Except String`
  codomain; a function whose body catches every exception gets a total
  codomain (or always returns `.ok`).
* JavaScript `number` values are IEEE-754 binary64 floats.  A finite double
  is modelled by its exact rational value; `roundDouble` is IEEE
  round-to-nearest, ties-to-even, restricted to the normal range (all values
  appearing in the claims are far away from subnormals and overflow).
  Arithmetic (`jsMul`, `jsDiv`, `jsAdd`) computes the exact rational result
  and rounds it, exactly as IEEE-754 prescribes.  Rational arithmetic is
  spelled with `Rat.divInt`/`mkRat` and integer operations so that every
  value is kernel-computable.
* The two transaction handlers (`handleTransaction` of the Movement page and
  `handlePlay` of the coin-flip page) are embedded as trace functions: given
  the outcomes of the external calls (address parser, builder, signer,
  submitter, confirmation wait, balance/pot reads) they return the ordered
  list of externally visible events (network calls and React state writes)
  that the handler performs.
-/

set_option maxRecDepth 8000

/-- JavaScript strings, modelled as lists of characters. -/
abbrev JStr := List Char

/-- The character list of a Lean string literal. -/
def js (s : String) : JStr := s.data

/-- Decidable equality of call outcomes. -/
instance {e a : Type} [DecidableEq e] [DecidableEq a] : DecidableEq (Except e a) := fun x y =>
  match x, y with
  | .ok u, .ok v =>
    if h : u = v then .isTrue (by rw [h]) else .isFalse (by intro hc; cases hc; exact h rfl)
  | .error u, .error v =>
    if h : u = v then .isTrue (by rw [h]) else .isFalse (by intro hc; cases hc; exact h rfl)
  | .ok _, .error _ => .isFalse (by intro hc; cases hc)
  | .error _, .ok _ => .isFalse (by intro hc; cases hc)

/-- JavaScript `String.prototype.trim()` (ASCII whitespace suffices for the
strings handled by this application). -/
def jsTrim (s : JStr) : JStr :=
  ((s.dropWhile Char.isWhitespace).reverse.dropWhile Char.isWhitespace).reverse

/-- `n.toString()` for a JavaScript non-negative integer value. -/
def natToJStr (n : Nat) : JStr := (Nat.repr n).data

/-- Numeric value of a non-empty decimal-digit prefix. -/
def digitPrefixVal (s : JStr) : Option Nat :=
  let ds := s.takeWhile Char.isDigit
  if ds.isEmpty then none
  else some (ds.foldl (fun a c => 10 * a + (c.toNat - 48)) 0)

/-- JavaScript `parseInt(s)` (radix 10): skip leading whitespace, optional
sign, then the maximal digit prefix; `none` models `NaN`. -/
def parseIntJS (s : JStr) : Option Int :=
  let t := s.dropWhile Char.isWhitespace
  match t with
  | '-' :: rest => (digitPrefixVal rest).map (fun n => -(n : Int))
  | '+' :: rest => (digitPrefixVal rest).map (fun n => (n : Int))
  | _ => (digitPrefixVal t).map (fun n => (n : Int))

/-! ## IEEE-754 binary64 model -/

/-- Fuel-driven `⌊log₂ n⌋` (0 for `n = 0`), kernel-computable. -/
def log2Aux : Nat → Nat → Nat
  | 0, _ => 0
  | fuel + 1, n => if n < 2 then 0 else log2Aux fuel (n / 2) + 1

/-- `⌊log₂ n⌋` for positive `n`. -/
def natLog2 (n : Nat) : Nat := log2Aux n n

/-- The rational `2 ^ k` for an integer exponent `k`. -/
def pow2z (k : Int) : ℚ :=
  if 0 ≤ k then Rat.divInt ((2 ^ k.toNat : Nat) : Int) 1
  else Rat.divInt 1 ((2 ^ (-k).toNat : Nat) : Int)

/-- Kernel-computable product of rationals. -/
def qMul (a b : ℚ) : ℚ := Rat.divInt (a.num * b.num) ((a.den : Int) * (b.den : Int))

/-- Kernel-computable quotient of rationals (`b ≠ 0` in every use site). -/
def qDiv (a b : ℚ) : ℚ := Rat.divInt (a.num * (b.den : Int)) ((a.den : Int) * b.num)

/-- Kernel-computable sum of rationals. -/
def qAdd (a b : ℚ) : ℚ :=
  Rat.divInt (a.num * (b.den : Int) + b.num * (a.den : Int)) ((a.den : Int) * (b.den : Int))

/-- Kernel-computable strict comparison of rationals (denominators of `ℚ` are
positive, so cross-multiplication is sound). -/
def qLtB (a b : ℚ) : Bool := a.num * (b.den : Int) < b.num * (a.den : Int)

/-- Round a rational to the nearest integer, ties to even. -/
def roundHalfEven (r : ℚ) : Int :=
  let n := Int.fdiv r.num (r.den : Int)
  let rem := r.num - n * (r.den : Int)
  if 2 * rem < (r.den : Int) then n
  else if (r.den : Int) < 2 * rem then n + 1
  else if n % 2 = 0 then n else n + 1

/-- Round a positive rational to the nearest binary64 value (normal range):
find the binade `[2^e, 2^(e+1))`, whose unit in the last place is
`2^(e-52)`, and round to the nearest multiple of it, ties to even. -/
def roundPos (q : ℚ) : ℚ :=
  let e0 : Int := (natLog2 q.num.natAbs : Int) - (natLog2 q.den : Int)
  let e : Int := if qLtB q (pow2z e0) then e0 - 1 else e0
  let ulp : ℚ := pow2z (e - 52)
  qMul (Rat.divInt (roundHalfEven (qDiv q ulp)) 1) ulp

/-- The binary64 value nearest to an exact rational (round to nearest, ties
to even); this is what a JavaScript number literal or arithmetic result
denotes. -/
def roundDouble (q : ℚ) : ℚ :=
  if q = 0 then 0 else if qLtB q 0 then -(roundPos (-q)) else roundPos q

/-- JavaScript `x * y` on doubles: exact product, then one rounding. -/
def jsMul (x y : ℚ) : ℚ := roundDouble (qMul x y)

/-- JavaScript `x / y` on doubles: exact quotient, then one rounding. -/
def jsDiv (x y : ℚ) : ℚ := roundDouble (qDiv x y)

/-- JavaScript `x + y` on doubles: exact sum, then one rounding. -/
def jsAdd (x y : ℚ) : ℚ := roundDouble (qAdd x y)

/-- The double denoted by the decimal literal `intPart.fracPart` with
`fracDigits` fractional digits, i.e. the value `mant / 10 ^ fracDigits`
(e.g. `doubleLit 29 2 = 0.29`). -/
def doubleLit (mant : Nat) (fracDigits : Nat) : ℚ :=
  roundDouble (Rat.divInt (mant : Int) ((10 ^ fracDigits : Nat) : Int))

/-! ## `src/lib/aptos-utils.ts` -/

/-- `isValidAddress` (aptos-utils.ts:15-22): `try { AccountAddress.from(address);
return true } catch { return false }`.  The external parser
`AccountAddress.from` is a parameter; an `.error` result models a thrown
exception.  The catch-all makes the function itself total, hence the `Bool`
codomain. -/
def isValidAddress (parse : JStr → Except String Unit) (address : JStr) : Bool :=
  match parse address with
  | .ok _ => true
  | .error _ => false

/-- `octasToAPT` (aptos-utils.ts:28-36), `bigint` input branch:
`Number(octas) / 100000000` in double arithmetic. -/
def octasToAPTofBigInt (octas : Int) : ℚ :=
  jsDiv (roundDouble (Rat.divInt octas 1)) (Rat.divInt 100000000 1)

/-- `octasToAPT` (aptos-utils.ts:28-36), `string` input branch:
`parseInt(octas) / 100000000` in double arithmetic (only called on decimal
digit strings, where `parseInt` never yields `NaN`; the `getD` default is
unreachable there). -/
def octasToAPTofStr (octas : JStr) : ℚ :=
  jsDiv (roundDouble (Rat.divInt ((parseIntJS octas).getD 0) 1)) (Rat.divInt 100000000 1)

/-- `aptToOctas` (aptos-utils.ts:42-44): `BigInt(Math.floor(apt * 100000000))`.
`apt` is the exact value of a double; the product is one IEEE rounding, and
`Math.floor` of a finite double is its exact mathematical floor. -/
def aptToOctas (apt : ℚ) : Int :=
  let p := jsMul apt (Rat.divInt 100000000 1)
  Int.fdiv p.num (p.den : Int)

/-- The two prefix-stripping steps of `cleanPublicKey` (aptos-utils.ts:56-67):
drop a leading `0x`/`0X`, then drop a leading `00` byte pair from a
66-character string. -/
def normalizeKey (publicKeyHex : JStr) : JStr :=
  let c1 :=
    if (js "0x").isPrefixOf (publicKeyHex.map Char.toLower) then publicKeyHex.drop 2
    else publicKeyHex
  if c1.length == 66 && (js "00").isPrefixOf c1 then c1.drop 2 else c1

/-- `cleanPublicKey` (aptos-utils.ts:56-75): normalize, then demand exactly 64
characters; a result of any other length throws. -/
def cleanPublicKey (publicKeyHex : JStr) : Except String JStr :=
  let cleaned := normalizeKey publicKeyHex
  if cleaned.length == 64 then .ok cleaned
  else .error ("Invalid public key length: " ++ Nat.repr cleaned.length ++ ", expected 64")

/-- The signature normalization applied before building the authenticator
(page.tsx:174, aptos-utils.ts:658): `rawSignature.slice(2)`. -/
def stripSignature (rawSignature : JStr) : JStr := rawSignature.drop 2

/-- `fetchWalletBalance` (aptos-utils.ts:567-577): on a successful balance
read publish `result.toString()`; on failure log and publish `"0"`.  The
internal catch makes the function total (it never rejects), hence the result
is always `.ok`.  The second argument is the previously published balance,
which the function ignores. -/
def fetchWalletBalance (result : Except String Nat) (_prevBalance : JStr) :
    Except String JStr :=
  match result with
  | .ok v => .ok (natToJStr v)
  | .error _ => .ok (js "0")

/-! ## `src/lib/aptos-hooks.ts` -/

/-- One linked-identity record as delivered by the identity provider.  A
field is `none` when the property is missing from the record (or holds a
non-string value, which every code path treats identically). -/
structure LinkedRecord where
  chainType : Option JStr
  address : Option JStr
  publicKey : Option JStr
  deriving DecidableEq

/-- The `{address, publicKey}` pair produced by `useAptosWallet`
(aptos-hooks.ts:30-33).  The unchecked casts in the source mean a field can
be `undefined` at runtime, modelled by `none`. -/
structure AptosWallet where
  address : Option JStr
  publicKey : Option JStr
  deriving DecidableEq

/-- The `find` predicate shared by `useAptosWallet` and the inline lookups:
the record is an object whose `chainType` property equals `"aptos"`. -/
def hasAptosTag (a : LinkedRecord) : Bool := a.chainType == some (js "aptos")

/-- `useAptosWallet` (aptos-hooks.ts:16-37): find the first record tagged
`"aptos"` and return its `address`/`publicKey` fields via unchecked casts;
`none` models both "no linked accounts" and "no matching record". -/
def useAptosWallet (linkedAccounts : Option (List LinkedRecord)) : Option AptosWallet :=
  match linkedAccounts with
  | none => none
  | some accounts =>
    match accounts.find? hasAptosTag with
    | some a => some { address := a.address, publicKey := a.publicKey }
    | none => none

/-! ## `src/app/page.tsx` -/

/-- `isAptosAccount` (page.tsx:35-46): the record is tagged `"aptos"` and
both `address` and `publicKey` are present string properties. -/
def isAptosAccount (a : LinkedRecord) : Bool :=
  hasAptosTag a && a.address.isSome && a.publicKey.isSome

/-- The inline account lookup of the handlers (page.tsx:116-123,
aptos-utils.ts:591 via `useAptosWallet` feeding the same pattern):
`linkedAccounts?.find(tag) && isAptosAccount(found) ? found : undefined`. -/
def resolveInline (linkedAccounts : Option (List LinkedRecord)) : Option LinkedRecord :=
  match linkedAccounts with
  | none => none
  | some accounts =>
    match accounts.find? hasAptosTag with
    | some a => if isAptosAccount a then some a else none
    | none => none

/-- `fetchPotBalance` (page.tsx:87-100): on a successful view call publish
`result[0]`; on failure only log — the previously published pot value stays.
The internal catch makes the function total, hence always `.ok`. -/
def fetchPotBalance (viewResult : Except String JStr) (prevPot : JStr) :
    Except String JStr :=
  match viewResult with
  | .ok v => .ok v
  | .error _ => .ok prevPot

/-- JavaScript `parseInt(a) === k` where `a` may be `NaN` (`none`):
`NaN === k` is false. -/
def jsEqNum (a : Option Int) (k : Int) : Bool :=
  match a with
  | some v => v == k
  | none => false

/-- JavaScript `parseInt(a) > parseInt(b)` where either side may be `NaN`:
any comparison with `NaN` is false. -/
def jsGtNum (a b : Option Int) : Bool :=
  match a, b with
  | some x, some y => y < x
  | _, _ => false

/-- Win/loss classification of a confirmed play. -/
inductive PlayOutcome
  | win
  | lose
  | jackpotWin
  deriving DecidableEq

/-- The win/loss inference of `handlePlay` (page.tsx:199-212): pot dropped to
zero from a positive value ⇒ win; pot increased ⇒ loss; anything else ⇒ the
ambiguous jackpot case (also reported as a win). -/
def inferPlayResult (potBefore potAfterValue : JStr) : PlayOutcome :=
  if jsEqNum (parseIntJS potAfterValue) 0 && jsGtNum (parseIntJS potBefore) (some 0) then
    .win
  else if jsGtNum (parseIntJS potAfterValue) (parseIntJS potBefore) then
    .lose
  else
    .jackpotWin

/-! ## Event-trace model of the handlers -/

/-- JavaScript falsiness of a possibly-undefined string: `undefined` and `""`
are falsy. -/
def jsFalsyStr (o : Option JStr) : Bool :=
  match o with
  | none => true
  | some s => s.isEmpty

/-- The `lastResult` state of the coin-flip page (`"win" | "lose" | null`). -/
inductive WL
  | win
  | lose
  deriving DecidableEq

/-- The user-visible status/error messages the handlers write.  Messages that
interpolate a runtime value carry that value as a payload; the surrounding
template text is rendering detail. -/
inductive Msg
  | connectFirst
  | createWalletFirst
  | enterRecipient
  | invalidRecipientFormat
  | addrRequired
  | addrInvalid
  | emptyMsg
  | walletNotConfigured
  | invalidPublicKeyFormat
  | submittedWaiting
  | successHash (h : JStr)
  | errorText (m : String)
  | wonPot (payoutAPT : ℚ)
  | lostBet
  | jackpotWon
  deriving DecidableEq

/-- Externally visible actions of a handler run: network calls of the chain
client / remote signer, and React state writes. -/
inductive Ev
  | callBuildTransfer (octas : Int)
  | callBuildPlay (choice : Int)
  | callSign
  | callSubmit (publicKey : JStr) (signature : JStr)
  | callWait (hash : JStr)
  | callView
  | callGetBalance
  | setTxHash (h : JStr)
  | setTxStatus (m : Msg)
  | setAddressError (m : Msg)
  | setWalletBalance (v : JStr)
  | setPotBalance (v : JStr)
  | setIsLoading (b : Bool)
  | setLastResult (r : Option WL)
  deriving DecidableEq

/-- Events that cross the network boundary (build, sign, submit, wait for
confirmation, view call, balance read). -/
def isNetworkCall : Ev → Bool
  | .callBuildTransfer _ => true
  | .callBuildPlay _ => true
  | .callSign => true
  | .callSubmit _ _ => true
  | .callWait _ => true
  | .callView => true
  | .callGetBalance => true
  | _ => false

/-- Events of one `fetchWalletBalance` call (aptos-utils.ts:567-577): the
balance read, then the state write (`"0"` on failure). -/
def fetchWalletBalanceEvents (result : Except String Nat) : List Ev :=
  Ev.callGetBalance ::
    match result with
    | .ok v => [Ev.setWalletBalance (natToJStr v)]
    | .error _ => [Ev.setWalletBalance (js "0")]

/-- Events of one `fetchPotBalance` call (page.tsx:87-100): the view call,
then the state write on success (failure only logs). -/
def fetchPotBalanceEvents (viewResult : Except String JStr) : List Ev :=
  Ev.callView ::
    match viewResult with
    | .ok v => [Ev.setPotBalance v]
    | .error _ => []

/-- `(parseInt(potBefore) + BET_AMOUNT) / 100000000` (page.tsx:203), in double
arithmetic; only evaluated on the win branch, where `parseInt(potBefore)` is
a number (the `getD` default is unreachable there). -/
def playPayout (potBefore : JStr) : ℚ :=
  jsDiv (jsAdd (roundDouble (Rat.divInt ((parseIntJS potBefore).getD 0) 1))
               (Rat.divInt 1000000 1))
        (Rat.divInt 100000000 1)

/-- `handleTransaction` (aptos-utils.ts:585-684) as a trace function.  The
parameters after the UI inputs give the outcomes of the external calls in
program order: the address parser, the transaction builder, the remote
signer, the submitter, the confirmation wait and the balance refresh.
`amountNum` is the double `parseFloat(amount) || 0`.  The inner
`cleanPublicKey` catch returns from inside the `try`, so the `finally`
block fires a second `setIsLoading(false)` after the explicit one. -/
def handleTransaction
    (authenticated hasUser : Bool)
    (moveWallet : Option AptosWallet)
    (recipientAddress : JStr)
    (amountNum : ℚ)
    (parse : JStr → Except String Unit)
    (buildResult : Except String Unit)
    (signResult : Except String JStr)
    (submitResult : Except String JStr)
    (waitResult : Except String JStr)
    (balanceResult : Except String Nat) : List Ev :=
  if !(authenticated && hasUser) then [.setTxStatus .connectFirst]
  else
    match moveWallet with
    | none => [.setTxStatus .createWalletFirst]
    | some w =>
      if (jsTrim recipientAddress).isEmpty then
        [.setTxStatus .enterRecipient, .setAddressError .addrRequired]
      else if !(isValidAddress parse (jsTrim recipientAddress)) then
        [.setTxStatus .invalidRecipientFormat, .setAddressError .addrInvalid]
      else
        .setAddressError .emptyMsg ::
        (if jsFalsyStr w.address || jsFalsyStr w.publicKey then
          [.setTxStatus .walletNotConfigured]
        else
          let walletAddress := w.address.getD []
          let publicKeyHex := w.publicKey.getD []
          .setIsLoading true :: .setTxStatus .emptyMsg ::
          (match cleanPublicKey publicKeyHex with
           | .error _ =>
             [.setTxStatus .invalidPublicKeyFormat, .setIsLoading false, .setIsLoading false]
           | .ok pkClean =>
             match parse walletAddress with
             | .error e => [.setTxStatus (.errorText e), .setIsLoading false]
             | .ok _ =>
               match parse (jsTrim recipientAddress) with
               | .error e => [.setTxStatus (.errorText e), .setIsLoading false]
               | .ok _ =>
                 .callBuildTransfer (aptToOctas amountNum) ::
                 match buildResult with
                 | .error e => [.setTxStatus (.errorText e), .setIsLoading false]
                 | .ok _ =>
                   .callSign ::
                   match signResult with
                   | .error e => [.setTxStatus (.errorText e), .setIsLoading false]
                   | .ok rawSignature =>
                     .callSubmit pkClean (stripSignature rawSignature) ::
                     match submitResult with
                     | .error e => [.setTxStatus (.errorText e), .setIsLoading false]
                     | .ok pendingHash =>
                       .setTxHash pendingHash ::
                       .setTxStatus .submittedWaiting ::
                       .callWait pendingHash ::
                       match waitResult with
                       | .error e => [.setTxStatus (.errorText e), .setIsLoading false]
                       | .ok executedHash =>
                         .setTxStatus (.successHash executedHash) ::
                         fetchWalletBalanceEvents balanceResult ++ [.setIsLoading false]))

/-- `handlePlay` (page.tsx:110-220) as a trace function.  Note the source
order around confirmation: `submit`, `waitForTransaction`, and only then
`setTxHash(pending.hash)` (page.tsx:177-186), followed by the pot refresh,
the second pot view and the win/loss inference. -/
def handlePlay
    (authenticated hasUser : Bool)
    (linkedAccounts : Option (List LinkedRecord))
    (choice : Int)
    (potBalance : JStr)
    (parse : JStr → Except String Unit)
    (buildResult : Except String Unit)
    (signResult : Except String JStr)
    (submitResult : Except String JStr)
    (waitResult : Except String Unit)
    (refreshViewResult : Except String JStr)
    (potAfterViewResult : Except String JStr) : List Ev :=
  if !(authenticated && hasUser) then [.setTxStatus .connectFirst]
  else
    match resolveInline linkedAccounts with
    | none => [.setTxStatus .createWalletFirst]
    | some acct =>
      let walletAddress := acct.address.getD []
      let publicKeyHex := acct.publicKey.getD []
      if walletAddress.isEmpty || publicKeyHex.isEmpty then
        [.setTxStatus .walletNotConfigured]
      else
        .setIsLoading true :: .setLastResult none ::
        (let potBefore := potBalance
         match cleanPublicKey publicKeyHex with
         | .error _ =>
           [.setTxStatus .invalidPublicKeyFormat, .setIsLoading false, .setIsLoading false]
         | .ok pkClean =>
           match parse walletAddress with
           | .error e => [.setTxStatus (.errorText e), .setLastResult none, .setIsLoading false]
           | .ok _ =>
             .callBuildPlay choice ::
             match buildResult with
             | .error e => [.setTxStatus (.errorText e), .setLastResult none, .setIsLoading false]
             | .ok _ =>
               .callSign ::
               match signResult with
               | .error e => [.setTxStatus (.errorText e), .setLastResult none, .setIsLoading false]
               | .ok rawSignature =>
                 .callSubmit pkClean (stripSignature rawSignature) ::
                 match submitResult with
                 | .error e =>
                   [.setTxStatus (.errorText e), .setLastResult none, .setIsLoading false]
                 | .ok pendingHash =>
                   .callWait pendingHash ::
                   match waitResult with
                   | .error e =>
                     [.setTxStatus (.errorText e), .setLastResult none, .setIsLoading false]
                   | .ok _ =>
                     .setTxHash pendingHash ::
                     fetchPotBalanceEvents refreshViewResult ++
                     .callView ::
                     match potAfterViewResult with
                     | .error e =>
                       [.setTxStatus (.errorText e), .setLastResult none, .setIsLoading false]
                     | .ok potAfterValue =>
                       (match inferPlayResult potBefore potAfterValue with
                        | .win =>
                          [.setLastResult (some .win), .setTxStatus (.wonPot (playPayout potBefore))]
                        | .lose => [.setLastResult (some .lose), .setTxStatus .lostBet]
                        | .jackpotWin => [.setLastResult (some .win), .setTxStatus .jackpotWon]) ++
                       [.setIsLoading false])

/-- Is this event a `setTxHash` write? -/
def isSetTxHash : Ev → Bool
  | .setTxHash _ => true
  | _ => false

/-- Is this event the confirmation wait call? -/
def isCallWait : Ev → Bool
  | .callWait _ => true
  | _ => false

/-- The transaction hash is published strictly before the confirmation wait:
some `setTxHash` write occurs in the trace prefix preceding the first
`waitForTransaction` call. -/
def hashSetBeforeWait (tr : List Ev) : Bool :=
  (tr.takeWhile (fun e => !(isCallWait e))).any isSetTxHash

/-! ## The fixed-interval polling loops -/

/-- State of `useAptosBalance` (aptos-hooks.ts:42-82). -/
structure BalanceState where
  balance : ℚ
  loading : Bool
  error : Option String
  deriving DecidableEq

/-- One tick of the `useAptosBalance` poller, `fetchBalance`
(aptos-hooks.ts:51-73): without an address publish balance 0 and return;
otherwise clear the error, read the balance, publish
`octasToAPT(balanceOctas.toString())` on success or record the error message
on failure, and clear the loading flag either way.  The internal catch makes
the tick total (always `.ok`). -/
def useAptosBalanceFetch (walletAddress : Option JStr) (result : Except String Nat)
    (s : BalanceState) : Except String BalanceState :=
  if jsFalsyStr walletAddress then .ok { s with balance := 0 }
  else
    match result with
    | .ok v => .ok { balance := octasToAPTofStr (natToJStr v), loading := false, error := none }
    | .error e => .ok { s with loading := false, error := some e }

/-- The `setInterval` polling loop: run one tick per scheduled interval with
that tick's external outcome.  A tick whose exception escaped (an `.error`
step result) would terminate the loop; the pair's second component counts the
ticks that actually executed. -/
def pollLoop {ε σ : Type} (step : ε → σ → Except String σ) :
    List ε → σ → σ × Nat
  | [], s => (s, 0)
  | r :: rest, s =>
    match step r s with
    | .error _ => (s, 1)
    | .ok s2 =>
      let p := pollLoop step rest s2
      (p.1, p.2 + 1)

/-! ## Theorems -/

/-- Helper: a polling loop whose step never lets an exception escape executes
every scheduled poll. -/
theorem pollLoop_length_of_total {ε σ : Type} (step : ε → σ → Except String σ)
    (h : ∀ r s, ∃ s2, step r s = .ok s2) :
    ∀ (results : List ε) (s : σ), (pollLoop step results s).2 = results.length := by
  intro results
  induction results with
  | nil => intro s; rfl
  | cons r rest ih =>
    intro s
    obtain ⟨s2, h2⟩ := h r s
    simp [pollLoop, h2, ih]

/-- C8: `isValidAddress` is total and never throws: it returns `true` on every
string the underlying address parser accepts and `false` (rather than
propagating the exception) on every string the parser rejects. -/
theorem c8_isValidAddress_total_never_throws :
    ∀ (parse : JStr → Except String Unit) (address : JStr),
      (∀ u, parse address = .ok u → isValidAddress parse address = true) ∧
      (∀ e, parse address = .error e → isValidAddress parse address = false) := by
  intro parse address
  constructor
  · intro u h
    simp [isValidAddress, h]
  · intro e h
    simp [isValidAddress, h]

/-- C8 witness: with a parser that rejects everything, the validator returns
`false` instead of an exception. -/
theorem c8_witness :
    isValidAddress (fun _ => .error "invalid address") (js "zz") = false :=
  (c8_isValidAddress_total_never_throws (fun _ => .error "invalid address") (js "zz")).2
    "invalid address" rfl

/-- C10: the two pollers disagree on the error branch: a failed wallet-balance
read publishes `"0"`, discarding the previous value, while a failed
pot-balance read leaves the previously published pot value unchanged. -/
theorem c10_pollers_disagree_on_error :
    (∀ (e : String) (prev : JStr),
        fetchWalletBalance (.error e) prev = .ok (js "0") ∧
        fetchPotBalance (.error e) prev = .ok prev) ∧
      fetchWalletBalance (.error "network down") (js "777") ≠
        fetchPotBalance (.error "network down") (js "777") := by
  refine ⟨fun e prev => ⟨rfl, rfl⟩, fun h => ?_⟩
  have h0 : js "0" = js "777" := by
    simpa [fetchWalletBalance, fetchPotBalance] using h
  exact absurd h0 (by decide)

/-- C9: an error inside a single poll is caught there, so the polling loop
never terminates early: both the pot poller and the wallet-balance poller
execute every scheduled poll, and a failing poll still hands control to the
next scheduled one. -/
theorem c9_poll_errors_do_not_stop_loop :
    (∀ (results : List (Except String JStr)) (pot : JStr),
        (pollLoop fetchPotBalance results pot).2 = results.length) ∧
    (∀ (addr : Option JStr) (results : List (Except String Nat)) (s : BalanceState),
        (pollLoop (useAptosBalanceFetch addr) results s).2 = results.length) ∧
    (∀ (e : String) (rest : List (Except String JStr)) (pot : JStr),
        pollLoop fetchPotBalance (.error e :: rest) pot =
          ((pollLoop fetchPotBalance rest pot).1, (pollLoop fetchPotBalance rest pot).2 + 1)) := by
  refine ⟨?_, ?_, ?_⟩
  · exact pollLoop_length_of_total _ (fun r s => by cases r <;> exact ⟨_, rfl⟩)
  · intro addr
    refine pollLoop_length_of_total _ (fun r s => ?_)
    unfold useAptosBalanceFetch
    split
    · exact ⟨_, rfl⟩
    · cases r
      · exact ⟨_, rfl⟩
      · exact ⟨_, rfl⟩
  · intro e rest pot
    simp [pollLoop, fetchPotBalance]

/-- C7: the win/loss inference after a confirmed play: post-pot zero after a
strictly positive pre-pot ⇒ win; otherwise a strict pot increase ⇒ loss;
every other transition ⇒ the ambiguous jackpot case.  In particular
2000000 → 0 infers a win and 0 → 1000000 infers a loss. -/
theorem c7_win_loss_inference :
    (∀ (sb sa : JStr) (nb na : Int),
        parseIntJS sb = some nb → parseIntJS sa = some na →
        inferPlayResult sb sa =
          (if na = 0 ∧ 0 < nb then PlayOutcome.win
           else if nb < na then PlayOutcome.lose
           else PlayOutcome.jackpotWin)) ∧
      inferPlayResult (js "2000000") (js "0") = PlayOutcome.win ∧
      inferPlayResult (js "0") (js "1000000") = PlayOutcome.lose := by
  refine ⟨?_, by decide, by decide⟩
  intro sb sa nb na hb ha
  by_cases h1 : na = 0 <;> by_cases h2 : 0 < nb <;> by_cases h3 : nb < na <;>
    simp [inferPlayResult, jsEqNum, jsGtNum, hb, ha, h1, h2, h3]

/-- C7 witness: a concrete pot transition 5 → 9 classified through the
inference characterization. -/
theorem c7_witness :
    parseIntJS (js "5") = some 5 ∧ parseIntJS (js "9") = some 9 ∧
      inferPlayResult (js "5") (js "9") =
        (if (9 : Int) = 0 ∧ 0 < (5 : Int) then PlayOutcome.win
         else if (5 : Int) < 9 then PlayOutcome.lose
         else PlayOutcome.jackpotWin) :=
  ⟨by decide, by decide,
    c7_win_loss_inference.1 (js "5") (js "9") 5 9 (by decide) (by decide)⟩

/-- C2 counterexample: the signature normalization is `rawSignature.slice(2)`,
applied unconditionally; a signature without a `0x` prefix is not left
unchanged — its first two characters are removed. -/
theorem c2_counterexample_slice_is_unconditional :
    (js "0x").isPrefixOf (js "abcd") = false ∧
      stripSignature (js "abcd") ≠ js "abcd" ∧
      stripSignature (js "abcd") = js "cd" := by decide

/-- C2 (amended): the normalization unconditionally removes the first two
characters of the raw signature string.  For the signer's `0x`-prefixed
signatures this yields exactly the raw signature bytes; for any other string
the first two signature characters are lost. -/
theorem c2_amended_slice_two_chars :
    (∀ sig : JStr, stripSignature (js "0x" ++ sig) = sig) ∧
    (∀ sig : JStr, stripSignature sig = sig.drop 2) := by
  exact ⟨fun sig => rfl, fun sig => rfl⟩

/-- Helper: a successful `cleanPublicKey` returns its normalized input, which
has exactly 64 characters. -/
theorem cleanPublicKey_ok_elim {s r : JStr} (h : cleanPublicKey s = .ok r) :
    r = normalizeKey s ∧ r.length = 64 := by
  simp only [cleanPublicKey] at h
  split at h
  · rename_i hc
    injection h with h2
    subst h2
    exact ⟨rfl, by simpa using hc⟩
  · cases h

/-- Helper: a 64-character string that does not begin with `0x`
(case-insensitively) is a fixed point of `cleanPublicKey`. -/
theorem cleanPublicKey_fixed (r : JStr) (hl : r.length = 64)
    (hpre : (js "0x").isPrefixOf (r.map Char.toLower) = false) :
    cleanPublicKey r = .ok r := by
  unfold cleanPublicKey normalizeKey
  simp [hpre, hl]

/-- C5 counterexample: `cleanPublicKey` succeeds on
`"0x0x" ++ 62 · 'a'` — returning `"0x" ++ 62 · 'a'` — but throws on its own
result, so it is not idempotent on every input on which it succeeds. -/
theorem c5_counterexample_not_idempotent :
    cleanPublicKey (js "0x0x" ++ List.replicate 62 'a') =
        .ok (js "0x" ++ List.replicate 62 'a') ∧
      cleanPublicKey (js "0x" ++ List.replicate 62 'a') =
        .error "Invalid public key length: 62, expected 64" := by decide

/-- C5 (amended): `cleanPublicKey` is idempotent on every input on which it
succeeds whose normalized result does not itself begin with `0x`
(case-insensitively) — in particular on every input whose result consists of
hex digits; and every 66-character string beginning with `00` normalizes to
its last-64-character suffix. -/
theorem c5_amended_idempotence :
    (∀ (s r : JStr), cleanPublicKey s = .ok r →
        (js "0x").isPrefixOf (r.map Char.toLower) = false →
        r.length = 64 ∧ cleanPublicKey r = .ok r) ∧
    (∀ t : JStr, t.length = 66 → (js "00").isPrefixOf t = true →
        cleanPublicKey t = .ok (t.drop (t.length - 64))) := by
  constructor
  · intro s r h hpre
    obtain ⟨hr, hl⟩ := cleanPublicKey_ok_elim h
    exact ⟨hl, cleanPublicKey_fixed r hl hpre⟩
  · intro t hlen hpre
    have h00 : js "00" = ['0', '0'] := rfl
    rw [h00] at hpre
    obtain ⟨rest, rfl⟩ : ∃ rest, t = '0' :: '0' :: rest := by
      cases t with
      | nil => simp [List.isPrefixOf] at hpre
      | cons a t1 =>
        cases t1 with
        | nil => simp [List.isPrefixOf] at hpre
        | cons b t2 =>
          simp only [List.isPrefixOf, Bool.and_eq_true, beq_iff_eq] at hpre
          obtain ⟨rfl, rfl, -⟩ := hpre
          exact ⟨t2, rfl⟩
    have hrest : rest.length = 64 := by simpa using hlen
    have h0 : Char.toLower '0' = '0' := by decide
    have hxc : ('x' == '0') = false := by decide
    have hx : (js "0x").isPrefixOf (List.map Char.toLower ('0' :: '0' :: rest)) = false := by
      have h0x : js "0x" = ['0', 'x'] := rfl
      rw [h0x]
      simp [List.isPrefixOf, h0, hxc]
    unfold cleanPublicKey normalizeKey
    rw [hx]
    simp [List.isPrefixOf, hrest]

/-- C5 witness: a bare 64-hex input is a fixed point, and a concrete
66-character `00`-prefixed string normalizes to its last 64 characters. -/
theorem c5_witness :
    cleanPublicKey (List.replicate 64 'b') = .ok (List.replicate 64 'b') ∧
      cleanPublicKey ('0' :: '0' :: List.replicate 64 'c') =
        .ok (('0' :: '0' :: List.replicate 64 'c').drop
              (('0' :: '0' :: List.replicate 64 'c').length - 64)) :=
  ⟨(c5_amended_idempotence.1 (List.replicate 64 'b') (List.replicate 64 'b')
      (by decide) (by decide)).2,
   c5_amended_idempotence.2 ('0' :: '0' :: List.replicate 64 'c') (by decide) (by decide)⟩

/-- The linked-identity record of the C1 counterexample: tagged `"aptos"` but
with no `address` property. -/
def c1PartialRecord : LinkedRecord :=
  { chainType := some (js "aptos"), address := none, publicKey := some (js "deadbeef") }

/-- The partially-populated pair `useAptosWallet` produces for it. -/
def c1PartialWallet : AptosWallet :=
  { address := none, publicKey := some (js "deadbeef") }

/-- C1 counterexample: on a record tagged `"aptos"` with a missing `address`
field, `useAptosWallet` returns neither an absence signal nor a
fully-populated pair, but a partially-populated one (`publicKey` present,
`address` absent). -/
theorem c1_counterexample_partial_pair :
    useAptosWallet (some [c1PartialRecord]) = some c1PartialWallet ∧
      (some c1PartialWallet : Option AptosWallet) ≠ none ∧
      c1PartialWallet.address.isSome = false ∧
      c1PartialWallet.publicKey.isSome = true := by decide

/-- C1 (amended): the inline lookups, which guard the found record with
`isAptosAccount`, do fail closed: any record they return carries both an
`address` and a `publicKey`.  `useAptosWallet` performs no such field check
and can return a partially-populated pair. -/
theorem c1_amended_inline_lookup_fails_closed :
    ∀ (accounts : Option (List LinkedRecord)) (a : LinkedRecord),
      resolveInline accounts = some a →
      a.address.isSome = true ∧ a.publicKey.isSome = true := by
  intro accounts a h
  cases accounts with
  | none => cases h
  | some l =>
    simp only [resolveInline] at h
    cases hf : l.find? hasAptosTag with
    | none =>
      simp only [hf] at h
      cases h
    | some f =>
      simp only [hf] at h
      by_cases hA : isAptosAccount f = true
      · rw [if_pos hA] at h
        injection h with h2
        subst h2
        unfold isAptosAccount at hA
        simp only [Bool.and_eq_true] at hA
        exact ⟨hA.1.2, hA.2⟩
      · rw [if_neg hA] at h
        cases h

/-- A fully-populated record for the C1 witness. -/
def c1GoodRecord : LinkedRecord :=
  { chainType := some (js "aptos"), address := some (js "0xabc"),
    publicKey := some (js "0123") }

/-- C1 witness: the inline lookup resolves the fully-populated record and the
amended theorem yields both fields. -/
theorem c1_witness :
    c1GoodRecord.address.isSome = true ∧ c1GoodRecord.publicKey.isSome = true :=
  c1_amended_inline_lookup_fails_closed (some [c1GoodRecord]) c1GoodRecord (by decide)

/-- C4 counterexample: the decimal `0.29` has only two fractional digits, yet
`aptToOctas` floors the binary64 product `0.29 * 1e8 = 28999999.999999996` to
`28999999`, and converting back does not reproduce `0.29`: the claimed exact
round-trip fails. -/
theorem c4_counterexample_roundtrip_fails :
    aptToOctas (doubleLit 29 2) = 28999999 ∧
      octasToAPTofBigInt (aptToOctas (doubleLit 29 2)) ≠ doubleLit 29 2 := by
  constructor
  · decide
  · decide

/-- C4 (amended): `aptToOctas` floors the double-precision product
`x * 10^8` (truncation, never rounding): amount `1.5` yields exactly
`150000000` smallest units and round-trips, `0.000000005` truncates to `0`
rather than rounding to `1`, but the round-trip is not exact for all inputs
with at most 8 fractional digits — `0.29` maps to `28999999` and back to the
double `0.28999999`. -/
theorem c4_amended_floor_truncation :
    aptToOctas (doubleLit 15 1) = 150000000 ∧
      octasToAPTofBigInt 150000000 = doubleLit 15 1 ∧
      aptToOctas (doubleLit 5 9) = 0 ∧
      aptToOctas (doubleLit 29 2) = 28999999 ∧
      octasToAPTofBigInt (aptToOctas (doubleLit 29 2)) = doubleLit 28999999 8 := by
  refine ⟨by decide, by decide, by decide, by decide, by decide⟩

/-- C6: if the resolved public key's normalized form does not have exactly 64
characters, `handleTransaction` halts with the invalid-key-format status and
performs no network call at all (no build, sign, submit, wait, view or
balance read): the trace consists solely of the pre-flight state writes and
the failure status. -/
theorem c6_invalid_key_halts_before_network
    (wa pk recipient : JStr) (amountNum : ℚ)
    (parse : JStr → Except String Unit)
    (buildResult : Except String Unit)
    (signResult submitResult waitResult : Except String JStr)
    (balanceResult : Except String Nat)
    (hwa : wa.isEmpty = false) (hpk : pk.isEmpty = false)
    (htrim : (jsTrim recipient).isEmpty = false)
    (hvalid : parse (jsTrim recipient) = .ok ())
    (hbad : (normalizeKey pk).length ≠ 64) :
    handleTransaction true true (some { address := some wa, publicKey := some pk })
        recipient amountNum parse buildResult signResult submitResult waitResult
        balanceResult =
      [Ev.setAddressError Msg.emptyMsg, Ev.setIsLoading true, Ev.setTxStatus Msg.emptyMsg,
       Ev.setTxStatus Msg.invalidPublicKeyFormat, Ev.setIsLoading false,
       Ev.setIsLoading false] ∧
    (handleTransaction true true (some { address := some wa, publicKey := some pk })
        recipient amountNum parse buildResult signResult submitResult waitResult
        balanceResult).any isNetworkCall = false := by
  have h1 : isValidAddress parse (jsTrim recipient) = true := by
    simp [isValidAddress, hvalid]
  have hkey : cleanPublicKey pk =
      .error ("Invalid public key length: " ++ Nat.repr (normalizeKey pk).length ++
        ", expected 64") := by
    unfold cleanPublicKey
    rw [if_neg]
    simp [hbad]
  have htrace : handleTransaction true true (some { address := some wa, publicKey := some pk })
      recipient amountNum parse buildResult signResult submitResult waitResult
      balanceResult =
      [Ev.setAddressError Msg.emptyMsg, Ev.setIsLoading true, Ev.setTxStatus Msg.emptyMsg,
       Ev.setTxStatus Msg.invalidPublicKeyFormat, Ev.setIsLoading false,
       Ev.setIsLoading false] := by
    simp [handleTransaction, htrim, h1, hwa, hpk, jsFalsyStr, hkey]
  refine ⟨htrace, ?_⟩
  rw [htrace]
  rfl

/-- C6 witness: a 70-hex-character public key (normalized form keeps all 70
characters) halts the pipeline with no network call. -/
theorem c6_witness :
    (handleTransaction true true
        (some { address := some (js "0xabc"), publicKey := some (List.replicate 70 'a') })
        (js "0xdef") 0 (fun _ => .ok ()) (.ok ()) (.ok (js "0xsig")) (.ok (js "0xhash"))
        (.ok (js "0xhash")) (.ok 5)).any isNetworkCall = false :=
  (c6_invalid_key_halts_before_network (js "0xabc") (List.replicate 70 'a') (js "0xdef") 0
    (fun _ => .ok ()) (.ok ()) (.ok (js "0xsig")) (.ok (js "0xhash")) (.ok (js "0xhash"))
    (.ok 5) (by decide) (by decide) (by decide) rfl (by decide)).2

/-- The linked account of the C3 counterexample run: a fully-populated record
whose `0x`-prefixed 66-character key normalizes successfully. -/
def c3PlayRecord : LinkedRecord :=
  { chainType := some (js "aptos"), address := some (js "0xabc"),
    publicKey := some (js "0x" ++ List.replicate 64 'a') }

/-- A fully successful `handlePlay` run: every external call succeeds. -/
def c3PlayTrace : List Ev :=
  handlePlay true true (some [c3PlayRecord]) 0 (js "0") (fun _ => .ok ())
    (.ok ()) (.ok (js "0xsig")) (.ok (js "0xhash")) (.ok ()) (.ok (js "0"))
    (.ok (js "0"))

/-- C3 counterexample: in a fully successful `handlePlay` run the transaction
hash is written to the displayed state and the confirmation wait is called,
but no `setTxHash` write occurs before the wait — `handlePlay` publishes the
hash only after confirmation completes, so the claimed ordering fails. -/
theorem c3_counterexample_hash_after_wait :
    c3PlayTrace.any isSetTxHash = true ∧
      c3PlayTrace.any isCallWait = true ∧
      hashSetBeforeWait c3PlayTrace = false := by decide

/-- C3 (amended): `handleTransaction` publishes the `PendingSubmission` hash
before the confirmation wait in every run that reaches a successful
submission, but `handlePlay` never does — in every run of `handlePlay` the
hash write, when it happens at all, comes after the confirmation wait. -/
theorem c3_amended_hash_ordering :
    (∀ (wa pk recipient sigStr pendingHash : JStr) (amountNum : ℚ)
        (parse : JStr → Except String Unit)
        (waitResult : Except String JStr) (balanceResult : Except String Nat),
        wa.isEmpty = false → pk.isEmpty = false →
        (jsTrim recipient).isEmpty = false →
        parse (jsTrim recipient) = .ok () →
        parse wa = .ok () →
        (∃ pkc, cleanPublicKey pk = .ok pkc) →
        hashSetBeforeWait
          (handleTransaction true true (some { address := some wa, publicKey := some pk })
            recipient amountNum parse (.ok ()) (.ok sigStr) (.ok pendingHash)
            waitResult balanceResult) = true) ∧
    (∀ (authenticated hasUser : Bool) (accounts : Option (List LinkedRecord))
        (choice : Int) (pot : JStr) (parse : JStr → Except String Unit)
        (buildResult : Except String Unit) (signResult submitResult : Except String JStr)
        (waitResult : Except String Unit) (refreshViewResult potAfterViewResult :
          Except String JStr),
        hashSetBeforeWait
          (handlePlay authenticated hasUser accounts choice pot parse buildResult
            signResult submitResult waitResult refreshViewResult potAfterViewResult) =
          false) := by
  constructor
  · intro wa pk recipient sigStr pendingHash amountNum parse waitResult balanceResult
      hwa hpk htrim hvalid hparse hclean
    obtain ⟨pkc, hclean⟩ := hclean
    have h1 : isValidAddress parse (jsTrim recipient) = true := by
      simp [isValidAddress, hvalid]
    have htrace : handleTransaction true true
        (some { address := some wa, publicKey := some pk }) recipient amountNum parse
        (.ok ()) (.ok sigStr) (.ok pendingHash) waitResult balanceResult =
        Ev.setAddressError Msg.emptyMsg :: Ev.setIsLoading true :: Ev.setTxStatus Msg.emptyMsg ::
        Ev.callBuildTransfer (aptToOctas amountNum) :: Ev.callSign ::
        Ev.callSubmit pkc (stripSignature sigStr) ::
        Ev.setTxHash pendingHash :: Ev.setTxStatus Msg.submittedWaiting ::
        Ev.callWait pendingHash ::
        (match waitResult with
         | .error e => [Ev.setTxStatus (Msg.errorText e), Ev.setIsLoading false]
         | .ok executedHash =>
           Ev.setTxStatus (Msg.successHash executedHash) ::
           fetchWalletBalanceEvents balanceResult ++ [Ev.setIsLoading false]) := by
      simp [handleTransaction, htrim, h1, hwa, hpk, jsFalsyStr, hclean, hparse, hvalid]
    rw [htrace]
    rfl
  · intro authenticated hasUser accounts choice pot parse buildResult signResult
      submitResult waitResult refreshViewResult potAfterViewResult
    simp only [handlePlay]
    repeat' split
    all_goals rfl

/-- C3 witness: a concrete successful `handleTransaction` run publishes the
hash before the confirmation wait. -/
theorem c3_witness :
    hashSetBeforeWait
      (handleTransaction true true
        (some { address := some (js "0xabc"),
                publicKey := some (js "0x" ++ List.replicate 64 'a') })
        (js "0xdef") 0 (fun _ => .ok ()) (.ok ()) (.ok (js "0xsig")) (.ok (js "0xhash"))
        (.ok (js "0xhash")) (.ok 5)) = true :=
  c3_amended_hash_ordering.1 (js "0xabc") (js "0x" ++ List.replicate 64 'a') (js "0xdef")
    (js "0xsig") (js "0xhash") 0 (fun _ => .ok ()) (.ok (js "0xhash")) (.ok 5)
    (by decide) (by decide) (by decide) rfl rfl ⟨List.replicate 64 'a', by decide⟩
